import Mathlib

set_option maxRecDepth 8000

/-!
Shallow embedding of the systematic-review screening assistant
(src/survey_classifier.py and src/generate_accepted_bib.py) and proofs of
the frozen claims about it.

Conventions: Python strings are Lean `String`s manipulated as `List Char`;
Python `None`-able values are `Option`; Python exceptions are `Except String`.
Python's `re` character classes `\s` and `\d`, `str.lower`, `str.strip` and
string comparison are modelled over their ASCII behaviour, which covers every
string the program itself produces and every claim under study.
-/

namespace SurveyScreen

/-- Equality on `Except` outcomes is decidable, so concrete runs can be
checked by `decide`. -/
instance exceptDecEq {α β : Type} [DecidableEq α] [DecidableEq β] :
    DecidableEq (Except α β) := fun x y =>
  match x, y with
  | Except.ok a, Except.ok b =>
      if h : a = b then isTrue (by rw [h]) else isFalse (by simp [h])
  | Except.error a, Except.error b =>
      if h : a = b then isTrue (by rw [h]) else isFalse (by simp [h])
  | Except.ok _, Except.error _ => isFalse (by simp)
  | Except.error _, Except.ok _ => isFalse (by simp)

/-- ASCII model of Python's regex class `\s` and of the characters
`str.strip()` removes: space, tab, newline, carriage return, vertical tab,
form feed. -/
def isPySpace (c : Char) : Bool :=
  c = ' ' || c = '\t' || c = '\n' || c = '\r' || c = '\x0b' || c = '\x0c'

/-- Lowercasing of a character list, modelling Python's `str.lower()` (ASCII). -/
def lcList (cs : List Char) : List Char := cs.map Char.toLower

/-- Case-insensitive literal match at the head of `cs`: true when the first
`pat.length` characters of `cs`, lowercased, are exactly `pat` (`pat` is given
in lowercase). -/
def matchLitCI (pat cs : List Char) : Bool :=
  lcList (cs.take pat.length) == pat

/-- The ordered alternatives of the regex group `(accepted|rejected|not-sure)`
in `parse_response` (src/survey_classifier.py line 26). -/
def statusAlts : List (List Char) :=
  ["accepted".data, "rejected".data, "not-sure".data]

/-- Attempt of the pattern `Status:\s*(accepted|rejected|not-sure)` (flag
`re.IGNORECASE`) at the start of `cs`, as `re.search` tries it at one
position: the literal `Status:` case-insensitively, then greedily skipped
whitespace, then the first alternative that matches case-insensitively.
Greedy `\s*` needs no backtracking here because no alternative starts with a
whitespace character.  The value returned is the canonical lowercase
alternative, which equals `group(1).lower()` of line 31: the matched slice
lowercased is exactly the alternative. -/
def matchStatusAt (cs : List Char) : Option (List Char) :=
  if matchLitCI "status:".data cs then
    statusAlts.find? fun alt => matchLitCI alt ((cs.drop 7).dropWhile isPySpace)
  else none

/-- Leftmost-match search: `re.search` semantics.  Tries the single-position
matcher `f` at every suffix of the text, leftmost first (the empty suffix
included). -/
def searchAux {α : Type} (f : List Char → Option α) : List Char → Option α
  | [] => f []
  | c :: cs =>
    match f (c :: cs) with
    | some v => some v
    | none => searchAux f cs

/-- Attempt of the pattern `Criteria:\s*((CI|CX)\d+)` (no flags, hence
case-sensitive) at the start of `cs` (src/survey_classifier.py line 27):
the literal `Criteria:`, skipped whitespace, then `C`, one of `I`/`X`, and a
maximal nonempty run of digits; the returned value is capture group 1. -/
def matchCriteriaAt (cs : List Char) : Option (List Char) :=
  if cs.take 9 == "Criteria:".data then
    match (cs.drop 9).dropWhile isPySpace with
    | 'C' :: k :: rest =>
      if k = 'I' || k = 'X' then
        match rest.takeWhile Char.isDigit with
        | [] => none
        | d :: ds => some ('C' :: k :: d :: ds)
      else none
    | _ => none
  else none

/-- Attempt of the pattern `Reasoning:\s*(.*)` (flag `re.DOTALL`, hence `.`
also matches newlines) at the start of `cs` (src/survey_classifier.py
line 28): the literal `Reasoning:` (case-sensitive), greedily skipped
whitespace, then the capture group takes everything to the end of the text. -/
def matchReasoningAt (cs : List Char) : Option (List Char) :=
  if cs.take 10 == "Reasoning:".data then
    some ((cs.drop 10).dropWhile isPySpace)
  else none

/-- Trailing-whitespace removal. -/
def stripEnd (cs : List Char) : List Char :=
  (cs.reverse.dropWhile isPySpace).reverse

/-- Model of Python's `str.strip()` (ASCII whitespace). -/
def pyStrip (cs : List Char) : List Char :=
  stripEnd (cs.dropWhile isPySpace)

/-- The three fields `parse_response` extracts. -/
structure EvalFields where
  status : String
  criteria : String
  reasoning : String
deriving DecidableEq

/-- The body of `parse_response` (src/survey_classifier.py lines 26-34): the
three independent regex searches with their independent defaults; the
reasoning capture is `.strip()`-ped. -/
def parseFields (response_text : String) : EvalFields :=
  { status :=
      match searchAux matchStatusAt response_text.data with
      | some v => String.mk v
      | none => "not-sure"
    criteria :=
      match searchAux matchCriteriaAt response_text.data with
      | some v => String.mk v
      | none => "not-specified"
    reasoning :=
      match searchAux matchReasoningAt response_text.data with
      | some v => String.mk (pyStrip v)
      | none => "" }

/-- Embeds `parse_response` (src/survey_classifier.py lines 23-37).  The
argument models `response.choices[0].message.content`, which the service may
return as `None`: on `None` the first `re.search` raises `TypeError`, the
`except` branch fires and the parse-error sentinel is returned (lines 35-37);
on a string the body never raises. -/
def parse_response : Option String → EvalFields
  | some s => parseFields s
  | none =>
      { status := "not-sure", criteria := "parse-error",
        reasoning := "Response parsing failed" }

/-- A chat message of the completion request: role and content. -/
structure ChatMessage where
  role : String
  content : String

/-- The system message of `evaluate_entry` (src/survey_classifier.py line 58). -/
def systemMsg : String :=
  "You are a systematic review assistant. Use the exact response format."

/-- The user prompt `evaluate_entry` builds (src/survey_classifier.py
lines 41-51). -/
def buildPrompt (criteria_content title abstract : String) : String :=
  "Evaluate the paper based on these criteria:\n\n" ++ criteria_content ++
  "\n\nTitle: " ++ title ++ "\nAbstract: " ++ abstract ++
  "\n\nRespond STRICTLY in this format:\nStatus: [accepted/rejected/not-sure]\nCriteria: [CIn/CXn/not-applicable]\nReasoning: [Brief explanation linking to specific criteria]"

/-- The type of the external chat-completion service
(`client.chat.completions.create` followed by `.choices[0].message.content`):
given the model name and the messages, it returns the first choice's content
(possibly `None`) or raises a transport/service error.  The program treats it
as an opaque external collaborator, so the embedding takes it as a
parameter. -/
def ApiFun : Type := String → List ChatMessage → Except String (Option String)

/-- Embeds `evaluate_entry` (src/survey_classifier.py lines 39-68): build the
prompt, call the service with the fixed system message and the prompt, parse
the returned content; any exception from the call is caught and replaced by
the api-error sentinel (lines 66-68). -/
def evaluate_entry (api : ApiFun) (title abstract criteria_content model_name : String) :
    EvalFields :=
  match api model_name
      [⟨"system", systemMsg⟩, ⟨"user", buildPrompt criteria_content title abstract⟩] with
  | Except.ok content => parse_response content
  | Except.error _ =>
      { status := "not-sure", criteria := "api-error", reasoning := "Evaluation failed" }

/-- A bibliography entry as `process_entries` reads it: the `ID`, `title` and
`abstract` keys may each be absent (`entry.get`). -/
structure Entry where
  ID : Option String
  title : Option String
  abstract : Option String
deriving DecidableEq

/-- One result record of `process_entries` (src/survey_classifier.py
lines 110-116), which is also one row of the results CSV. -/
structure Verdict where
  citekey : String
  title : String
  status : String
  criteria : String
  reasoning : String
deriving DecidableEq

/-- The verdict `process_entries` appends for one entry
(src/survey_classifier.py lines 103-116): missing `title`/`abstract` default
to the empty string in the `evaluate_entry` call, a missing `ID` defaults to
the literal "N/A" in the record. -/
def entryVerdict (api : ApiFun) (criteria_content model_name : String) (e : Entry) :
    Verdict :=
  { citekey := e.ID.getD "N/A"
    title := e.title.getD ""
    status := (evaluate_entry api (e.title.getD "") (e.abstract.getD "") criteria_content model_name).status
    criteria := (evaluate_entry api (e.title.getD "") (e.abstract.getD "") criteria_content model_name).criteria
    reasoning := (evaluate_entry api (e.title.getD "") (e.abstract.getD "") criteria_content model_name).reasoning }

/-- Embeds `process_entries` (src/survey_classifier.py lines 94-120): one
verdict appended per entry, in input order (the loop index is used only for
progress logging). -/
def process_entries (api : ApiFun) (entries : List Entry)
    (criteria_content model_name : String) : List Verdict :=
  entries.map (entryVerdict api criteria_content model_name)

/-- One `counts[item['status']] += 1` step of `calculate_statistics`
(src/survey_classifier.py line 140): the `counts` dict has exactly the keys
accepted/rejected/not-sure, so any other status raises `KeyError`. -/
def bumpCounts (c : Nat × Nat × Nat) (status : String) : Except String (Nat × Nat × Nat) :=
  if status = "accepted" then Except.ok (c.1 + 1, c.2.1, c.2.2)
  else if status = "rejected" then Except.ok (c.1, c.2.1 + 1, c.2.2)
  else if status = "not-sure" then Except.ok (c.1, c.2.1, c.2.2 + 1)
  else Except.error ("KeyError: " ++ status)

/-- The status-counting loop of `calculate_statistics`
(src/survey_classifier.py lines 139-140). -/
def countStatuses : List Verdict → Nat × Nat × Nat → Except String (Nat × Nat × Nat)
  | [], c => Except.ok c
  | v :: vs, c =>
    match bumpCounts c v.status with
    | Except.ok c2 => countStatuses vs c2
    | Except.error e => Except.error e

/-- One `criteria_counts[criteria] = criteria_counts.get(criteria, 0) + 1`
step (src/survey_classifier.py line 142), on an insertion-ordered
association list as a Python dict. -/
def bumpAssoc : List (String × Nat) → String → List (String × Nat)
  | [], k => [(k, 1)]
  | (q, n) :: rest, k =>
    if q = k then (q, n + 1) :: rest else (q, n) :: bumpAssoc rest k

/-- The criteria-counting loop of `calculate_statistics`
(src/survey_classifier.py lines 141-142). -/
def criteriaCounts : List Verdict → List (String × Nat) → List (String × Nat)
  | [], acc => acc
  | v :: vs, acc => criteriaCounts vs (bumpAssoc acc v.criteria)

/-- Insertion into a key-sorted list, for `sorted(criteria_counts.items())`
(keys of a dict are distinct, so comparing keys decides the order). -/
def insertByKey (p : String × Nat) : List (String × Nat) → List (String × Nat)
  | [] => [p]
  | q :: rest => if p.1 < q.1 then p :: q :: rest else q :: insertByKey p rest

/-- Model of `sorted(criteria_counts.items())` (src/survey_classifier.py
line 150). -/
def sortByKey : List (String × Nat) → List (String × Nat)
  | [] => []
  | p :: rest => insertByKey p (sortByKey rest)

/-- Python's true division `a / b` on the counts: raises `ZeroDivisionError`
when `b = 0`, otherwise the exact ratio (the program only formats it, so the
rational value stands for the float). -/
def pydiv (a b : Nat) : Except String ℚ :=
  if b = 0 then Except.error "ZeroDivisionError: division by zero"
  else Except.ok ((a : ℚ) / (b : ℚ))

/-- The per-criteria reporting loop of `calculate_statistics`
(src/survey_classifier.py lines 150-151): each logged line carries the count
and the ratio `count/total`. -/
def critLoop : List (String × Nat) → Nat → Except String (List (String × Nat × ℚ))
  | [], _ => Except.ok []
  | (k, n) :: rest, total =>
    match pydiv n total, critLoop rest total with
    | Except.ok p, Except.ok r => Except.ok ((k, n, p) :: r)
    | Except.error e, _ => Except.error e
    | _, Except.error e => Except.error e

/-- Embeds `calculate_statistics` (src/survey_classifier.py lines 134-151).
The function only logs; the embedding returns the data each logged line
carries — the three status counts with their ratios, then the sorted
per-criteria counts with their ratios — inside `Except`, since both the
`counts[...]` lookup (`KeyError`) and `count/total` (`ZeroDivisionError`)
can raise, in exactly this evaluation order. -/
def calculate_statistics (results : List Verdict) :
    Except String ((Nat × Nat × Nat) × List ℚ × List (String × Nat × ℚ)) :=
  match countStatuses results (0, 0, 0) with
  | Except.error e => Except.error e
  | Except.ok counts =>
    match pydiv counts.1 results.length, pydiv counts.2.1 results.length,
        pydiv counts.2.2 results.length with
    | Except.ok pa, Except.ok pr, Except.ok pn =>
      match critLoop (sortByKey (criteriaCounts results [])) results.length with
      | Except.ok crit => Except.ok (counts, [pa, pr, pn], crit)
      | Except.error e => Except.error e
    | Except.error e, _, _ => Except.error e
    | _, Except.error e, _ => Except.error e
    | _, _, Except.error e => Except.error e

/-- A bibliography entry as bibtexparser hands it over: the `ID` key (may be
absent from the dict, hence `entry.get('ID', '')`) and the remaining fields,
kept opaque — the filter copies entries verbatim and never touches them. -/
structure BibEntry where
  ID : Option String
  fields : List (String × String)
deriving DecidableEq

/-- Model of Python's `str.lower()` on a string (ASCII). -/
def lowerString (s : String) : String := String.mk (lcList s.data)

/-- The accepted-key set of `create_accepted_bib`
(src/generate_accepted_bib.py lines 24-29): the citekeys of the result rows
whose status, lowercased, is "accepted".  A row is one `csv.DictReader` dict
with the five result columns, the same shape as a `Verdict`. -/
def accepted_keys (rows : List Verdict) : List String :=
  rows.filterMap fun r =>
    if lowerString r.status = "accepted" then some r.citekey else none

/-- The filtering core of `create_accepted_bib`
(src/generate_accepted_bib.py lines 38-41): keep the original entries whose
`entry.get('ID', '')` is an accepted key, in their original order. -/
def create_accepted_bib (rows : List Verdict) (entries : List BibEntry) :
    List BibEntry :=
  entries.filter fun e => (accepted_keys rows).contains (e.ID.getD "")

/-- Embeds the whole `create_accepted_bib` body with its fallible file steps
(src/generate_accepted_bib.py lines 20-56): read the results CSV, read the
original bibliography, filter, write.  Each file operation is a parameter
returning `Except`; any error propagates (the `except` clause logs and
re-raises, line 54-56). -/
def create_accepted_bib_run (readCsv : Except String (List Verdict))
    (readBib : Except String (List BibEntry))
    (writeBib : List BibEntry → Except String Unit) : Except String Unit := do
  let rows ← readCsv
  let db ← readBib
  writeBib (create_accepted_bib rows db)

/-- Embeds `process_bib` (src/survey_classifier.py lines 153-163): load the
criteria, load the bibliography, process, write the CSV, compute statistics;
the `except` clause logs and re-raises, so every error propagates to the
caller. -/
def process_bib (criteria : Except String String)
    (loadBib : Except String (List Entry)) (api : ApiFun) (model_name : String)
    (writeCsv : List Verdict → Except String Unit) : Except String Unit := do
  let criteria_content ← criteria
  let entries ← loadBib
  let results := process_entries api entries criteria_content model_name
  writeCsv results
  let _ ← calculate_statistics results
  pure ()

/-- Exit status of the `__main__` block of src/survey_classifier.py
(lines 174-188): `process_bib` runs inside `try/except Exception` whose
handler only logs ("Fatal error occurred") and does not re-raise, so the
interpreter falls off the end of the script and the process exits 0 whatever
the outcome. -/
def survey_main_exit (run : Except String Unit) : Nat :=
  match run with
  | Except.ok _ => 0
  | Except.error _ => 0

/-- Exit status of the `__main__` block of src/generate_accepted_bib.py
(lines 58-77): `create_accepted_bib` is called with no surrounding handler,
so an exception it re-raises is uncaught and the interpreter exits 1. -/
def filter_main_exit (run : Except String Unit) : Nat :=
  match run with
  | Except.ok _ => 0
  | Except.error _ => 1

/-- Whether the csv module's excel dialect with QUOTE_MINIMAL (the default of
`csv.DictWriter`, src/survey_classifier.py line 126) quotes a field: it does
iff the field contains the delimiter, the quote character, or a line-break
character of the `\r\n` terminator. -/
def needsQuote (cs : List Char) : Bool :=
  cs.any fun c => c = ',' || c = '\"' || c = '\n' || c = '\r'

/-- Quote-doubling inside a quoted CSV field (the excel dialect's
`doublequote = True`). -/
def escField : List Char → List Char
  | [] => []
  | c :: cs => (if c = '\"' then ['\"', '\"'] else [c]) ++ escField cs

/-- One serialized CSV field under QUOTE_MINIMAL. -/
def encodeField (cs : List Char) : List Char :=
  if needsQuote cs then '\"' :: (escField cs ++ ['\"']) else cs

/-- One serialized data row of the results CSV, fields in the
`fieldnames=['citekey','title','status','criteria','reasoning']` order
(src/survey_classifier.py line 126). -/
def encodeRow (v : Verdict) : List Char :=
  encodeField v.citekey.data ++ ',' ::
    (encodeField v.title.data ++ ',' ::
      (encodeField v.status.data ++ ',' ::
        (encodeField v.criteria.data ++ ',' :: encodeField v.reasoning.data)))

/-- The header row `writer.writeheader()` emits (none of the field names needs
quoting). -/
def headerChars : List Char := "citekey,title,status,criteria,reasoning".data

/-- The list of a data row's fields in column order. -/
def rowFields (v : Verdict) : List String :=
  [v.citekey, v.title, v.status, v.criteria, v.reasoning]

/-- Embeds `write_results_to_csv` (src/survey_classifier.py lines 122-132) as
the text it writes: the header, then one row per verdict, each row terminated
by the excel dialect's `\r\n` (the file is opened with `newline=''`, so the
terminator reaches the file untranslated). -/
def write_results_to_csv (results : List Verdict) : List Char :=
  headerChars ++ '\r' :: '\n' ::
    results.foldr (fun v acc => encodeRow v ++ '\r' :: '\n' :: acc) []

/-- Universal-newline translation performed by `open(path)` without a
`newline` argument — how src/generate_accepted_bib.py line 25 reads the
results CSV back: each `\r\n` and each lone `\r` of the stream becomes `\n`,
inside quoted fields too (the csv docs warn that without `newline=''`
newlines embedded in quoted fields are not read back correctly). -/
def univNL : List Char → List Char
  | [] => []
  | '\r' :: '\n' :: cs => '\n' :: univNL cs
  | '\r' :: cs => '\n' :: univNL cs
  | c :: cs => c :: univNL cs

/-- State of the csv reader's field/record scanner: whether we are inside a
quoted field, whether the previous character was a quote met inside a quoted
field, the current field (reversed), the current record's finished fields
(reversed), the finished records (reversed). -/
structure CsvSt where
  inQ : Bool
  afterQ : Bool
  fld : List Char
  row : List String
  rows : List (List String)

/-- One character of csv parsing, following the csv module's non-strict excel
dialect: a quote opens quoted mode only at field start; inside quoted mode a
doubled quote is a literal quote; delimiters and record ends are recognized
outside quoted mode (and right after a closing quote). -/
def csvStep (st : CsvSt) (c : Char) : CsvSt :=
  if st.afterQ then
    if c = '\"' then { st with afterQ := false, fld := '\"' :: st.fld }
    else if c = ',' then
      { st with
        inQ := false
        afterQ := false
        fld := []
        row := String.mk st.fld.reverse :: st.row }
    else if c = '\n' then
      { inQ := false, afterQ := false, fld := [], row := [],
        rows := (String.mk st.fld.reverse :: st.row).reverse :: st.rows }
    else { st with inQ := false, afterQ := false, fld := c :: st.fld }
  else if st.inQ then
    if c = '\"' then { st with afterQ := true }
    else { st with fld := c :: st.fld }
  else
    if c = ',' then
      { st with fld := [], row := String.mk st.fld.reverse :: st.row }
    else if c = '\n' then
      { st with
        fld := []
        row := []
        rows := (String.mk st.fld.reverse :: st.row).reverse :: st.rows }
    else if c = '\"' then
      if st.fld.isEmpty then { st with inQ := true }
      else { st with fld := c :: st.fld }
    else { st with fld := c :: st.fld }

/-- End-of-input: a pending partial record is emitted; nothing is pending
after a final record terminator. -/
def csvFinish (st : CsvSt) : List (List String) :=
  if st.fld.isEmpty && st.row.isEmpty && !st.inQ && !st.afterQ then
    st.rows.reverse
  else ((String.mk st.fld.reverse :: st.row).reverse :: st.rows).reverse

/-- The csv reader over a translated character stream. -/
def csvParse (cs : List Char) : List (List String) :=
  csvFinish (cs.foldl csvStep ⟨false, false, [], [], []⟩)

/-- Reading the results table back as src/generate_accepted_bib.py lines 25-27
does: `open` applies universal-newline translation, then `csv.DictReader`
splits records and fields (the first record being the header). -/
def read_results_csv (file : List Char) : List (List String) :=
  csvParse (univNL file)

/-- The header record as the reader returns it. -/
def headerFields : List String :=
  ["citekey", "title", "status", "criteria", "reasoning"]

/-- Whether a verdict is free of carriage-return characters in every field —
the condition under which writing and reading the results table round-trips
(see the round-trip claim and its counterexample). -/
def crFree (v : Verdict) : Bool :=
  !(v.citekey.data.contains '\r' || v.title.data.contains '\r' ||
    v.status.data.contains '\r' || v.criteria.data.contains '\r' ||
    v.reasoning.data.contains '\r')

/-! Helper lemmas about ASCII lowercasing, used for the case-insensitivity
claim. -/

theorem toNat_ofNat_valid {m : Nat} (h : m < 55296) : (Char.ofNat m).toNat = m := by
  unfold Char.ofNat
  rw [dif_pos (Or.inl h)]
  rfl

theorem isPySpace_false_of_gt {x : Char} (hx : 32 < x.toNat) : isPySpace x = false := by
  have h1 : x ≠ ' ' := by intro e; rw [e] at hx; exact absurd hx (by decide)
  have h2 : x ≠ '\t' := by intro e; rw [e] at hx; exact absurd hx (by decide)
  have h3 : x ≠ '\n' := by intro e; rw [e] at hx; exact absurd hx (by decide)
  have h4 : x ≠ '\r' := by intro e; rw [e] at hx; exact absurd hx (by decide)
  have h5 : x ≠ '\x0b' := by intro e; rw [e] at hx; exact absurd hx (by decide)
  have h6 : x ≠ '\x0c' := by intro e; rw [e] at hx; exact absurd hx (by decide)
  simp [isPySpace, h1, h2, h3, h4, h5, h6]

theorem isPySpace_toLower (c : Char) : isPySpace c.toLower = isPySpace c := by
  unfold Char.toLower
  by_cases h : c.toNat ≥ 65 ∧ c.toNat ≤ 90
  · rw [if_pos h]
    have hv : (Char.ofNat (c.toNat + 32)).toNat = c.toNat + 32 :=
      toNat_ofNat_valid (by omega)
    rw [isPySpace_false_of_gt (by omega), isPySpace_false_of_gt (by omega)]
  · rw [if_neg h]

theorem toLower_toLower (c : Char) : c.toLower.toLower = c.toLower := by
  unfold Char.toLower
  by_cases h : c.toNat ≥ 65 ∧ c.toNat ≤ 90
  · rw [if_pos h]
    have hv : (Char.ofNat (c.toNat + 32)).toNat = c.toNat + 32 :=
      toNat_ofNat_valid (by omega)
    rw [if_neg (by omega)]
  · rw [if_neg h, if_neg h]

theorem lcList_idem (cs : List Char) : lcList (lcList cs) = lcList cs := by
  simp only [lcList, List.map_map]
  exact List.map_congr_left fun c _ => toLower_toLower c

theorem matchLitCI_lcList (pat cs : List Char) :
    matchLitCI pat (lcList cs) = matchLitCI pat cs := by
  simp only [matchLitCI, lcList, ← List.map_take]
  rw [show List.map Char.toLower (List.map Char.toLower (cs.take pat.length)) =
      List.map Char.toLower (cs.take pat.length) from lcList_idem (cs.take pat.length)]

theorem dropWhile_isPySpace_lcList (cs : List Char) :
    (lcList cs).dropWhile isPySpace = lcList (cs.dropWhile isPySpace) := by
  induction cs with
  | nil => rfl
  | cons c cs ih =>
    simp only [lcList, List.map_cons, List.dropWhile_cons, isPySpace_toLower]
    by_cases h : isPySpace c
    · simp only [h, if_true]
      exact ih
    · simp [h]

theorem matchStatusAt_lcList (cs : List Char) :
    matchStatusAt (lcList cs) = matchStatusAt cs := by
  unfold matchStatusAt
  rw [matchLitCI_lcList]
  by_cases h : matchLitCI "status:".data cs
  · rw [if_pos h, if_pos h]
    have hdrop : List.drop 7 (lcList cs) = lcList (List.drop 7 cs) := by
      simp [lcList, List.map_drop]
    rw [hdrop, dropWhile_isPySpace_lcList]
    have hfun : (fun alt => matchLitCI alt (lcList ((cs.drop 7).dropWhile isPySpace))) =
        fun alt => matchLitCI alt ((cs.drop 7).dropWhile isPySpace) :=
      funext fun alt => matchLitCI_lcList alt _
    rw [hfun]
  · rw [if_neg h, if_neg h]

theorem searchStatus_lcList (cs : List Char) :
    searchAux matchStatusAt (lcList cs) = searchAux matchStatusAt cs := by
  induction cs with
  | nil => rfl
  | cons c cs ih =>
    show searchAux matchStatusAt (c.toLower :: lcList cs) = _
    unfold searchAux
    have hm : matchStatusAt (c.toLower :: lcList cs) = matchStatusAt (c :: cs) :=
      matchStatusAt_lcList (c :: cs)
    rw [hm]
    cases matchStatusAt (c :: cs) with
    | some v => rfl
    | none => exact ih

/-! The claims. -/

/-- Claim C3: parse_response extracts the three fields independently, each
with its own default when its pattern is absent — status defaults to
"not-sure", criteria to "not-specified", reasoning to the empty string — and
the two concrete examples behave as stated. -/
theorem claim_C3_parser_independent_fields :
    (∀ s, searchAux matchStatusAt s.data = none →
      (parse_response (some s)).status = "not-sure") ∧
    (∀ s, searchAux matchCriteriaAt s.data = none →
      (parse_response (some s)).criteria = "not-specified") ∧
    (∀ s, searchAux matchReasoningAt s.data = none →
      (parse_response (some s)).reasoning = "") ∧
    parse_response (some "Status: accepted\nCriteria: CI3\nReasoning: fits well") =
      ⟨"accepted", "CI3", "fits well"⟩ ∧
    parse_response (some "The paper has nothing recognizable in it.") =
      ⟨"not-sure", "not-specified", ""⟩ := by
  refine ⟨?_, ?_, ?_, by decide, by decide⟩
  · intro s h
    simp [parse_response, parseFields, h]
  · intro s h
    simp [parse_response, parseFields, h]
  · intro s h
    simp [parse_response, parseFields, h]

/-- Claim C3 witness: the defaulting clauses of the claim theorem applied at
concrete inputs where each pattern is indeed absent. -/
theorem claim_C3_witness :
    (parse_response (some "Status: maybe")).status = "not-sure" ∧
    (parse_response (some "Criteria: CY9")).criteria = "not-specified" ∧
    (parse_response (some "reasons only")).reasoning = "" :=
  ⟨claim_C3_parser_independent_fields.1 "Status: maybe" (by decide),
   claim_C3_parser_independent_fields.2.1 "Criteria: CY9" (by decide),
   claim_C3_parser_independent_fields.2.2.1 "reasons only" (by decide)⟩

/-- Claim C4 counterexample: the claim says the pattern search is
case-insensitive for all three fields, e.g. that a lower-case criteria line
is still extracted; in the code only the status search carries
`re.IGNORECASE`, so lowering the criteria keyword and code changes the
extracted verdict from "CI3" to the default "not-specified". -/
theorem claim_C4_counterexample :
    (parse_response (some "Criteria: CI3")).criteria = "CI3" ∧
    (parse_response (some "criteria: ci3")).criteria = "not-specified" ∧
    (parse_response (some "Reasoning: because")).reasoning = "because" ∧
    (parse_response (some "reasoning: because")).reasoning = "" :=
  ⟨by decide, by decide, by decide, by decide⟩

/-- Claim C4 (amended): the case-insensitivity holds for the status field
only — lowercasing the letter case of the input never changes the extracted
status (keyword and value alike, e.g. "status: REJECTED" still yields
"rejected"), while the criteria and reasoning searches are case-sensitive
(see the counterexample). -/
theorem claim_C4_status_case_insensitive :
    (∀ s, (parse_response (some (lowerString s))).status =
      (parse_response (some s)).status) ∧
    (parse_response (some "status: REJECTED")).status = "rejected" := by
  constructor
  · intro s
    simp only [parse_response, parseFields, lowerString]
    rw [searchStatus_lcList]
  · decide

/-- Claim C1: for every entry sequence, criteria document and model
identifier — and every behaviour of the external oracle, failing calls
included — process_entries returns one verdict per entry, and the i-th
verdict carries the citekey of the i-th entry (the "N/A" default standing in
for an absent ID key). -/
theorem claim_C1_pipeline_length_and_order :
    ∀ (api : ApiFun) (entries : List Entry) (criteria_content model_name : String),
      (process_entries api entries criteria_content model_name).length =
        entries.length ∧
      ∀ i (h : i < entries.length)
        (h2 : i < (process_entries api entries criteria_content model_name).length),
        ((process_entries api entries criteria_content model_name).get ⟨i, h2⟩).citekey =
          (entries.get ⟨i, h⟩).ID.getD "N/A" := by
  intro api entries criteria_content model_name
  refine ⟨List.length_map _ _, ?_⟩
  intro i h h2
  simp [process_entries, entryVerdict]

/-- Claim C1 witness: the claim theorem applied to a concrete two-entry run
whose oracle fails on every call. -/
theorem claim_C1_witness :
    ((process_entries (fun _ _ => Except.error "boom")
        [⟨some "keyA", some "tA", none⟩, ⟨none, none, none⟩] "crit" "m").get
      ⟨1, by decide⟩).citekey =
      (([⟨some "keyA", some "tA", none⟩, ⟨none, none, none⟩] : List Entry).get
        ⟨1, by decide⟩).ID.getD "N/A" :=
  (claim_C1_pipeline_length_and_order (fun _ _ => Except.error "boom")
    [⟨some "keyA", some "tA", none⟩, ⟨none, none, none⟩] "crit" "m").2
    1 (by decide) (by decide)

/-- Claim C10: an entry whose ID, title and abstract keys are all absent is
processed without failure: the evaluation is invoked with the empty string
for title and abstract, the verdict record carries the citekey "N/A" and the
empty title, and processing of the remaining entries is unchanged. -/
theorem claim_C10_missing_fields_tolerated :
    ∀ (api : ApiFun) (criteria_content model_name : String) (rest : List Entry),
      process_entries api (⟨none, none, none⟩ :: rest) criteria_content model_name =
        { citekey := "N/A"
          title := ""
          status := (evaluate_entry api "" "" criteria_content model_name).status
          criteria := (evaluate_entry api "" "" criteria_content model_name).criteria
          reasoning :=
            (evaluate_entry api "" "" criteria_content model_name).reasoning } ::
        process_entries api rest criteria_content model_name := by
  intro api criteria_content model_name rest
  rfl

/-- Claim C5: per-entry failures are recovered locally — an oracle call that
raises yields the api-error sentinel verdict, a parsing step that raises
(a None response body, as opposed to patterns merely not found) yields the
parse-error sentinel — and in every case the pipeline continues with the
next entry, each entry contributing exactly one verdict. -/
theorem claim_C5_per_entry_failure_recovery :
    (∀ (api : ApiFun) (title abstract criteria_content model_name e : String),
      api model_name
          [⟨"system", systemMsg⟩, ⟨"user", buildPrompt criteria_content title abstract⟩] =
        Except.error e →
      evaluate_entry api title abstract criteria_content model_name =
        ⟨"not-sure", "api-error", "Evaluation failed"⟩) ∧
    parse_response none = ⟨"not-sure", "parse-error", "Response parsing failed"⟩ ∧
    (∀ (api : ApiFun) (e : Entry) (rest : List Entry)
        (criteria_content model_name : String),
      process_entries api (e :: rest) criteria_content model_name =
        entryVerdict api criteria_content model_name e ::
          process_entries api rest criteria_content model_name) := by
  refine ⟨?_, rfl, fun _ _ _ _ _ => rfl⟩
  intro api title abstract criteria_content model_name e h
  simp [evaluate_entry, h]

/-- Claim C5 witness: the oracle-failure clause of the claim theorem applied
to a concrete always-failing oracle. -/
theorem claim_C5_witness :
    evaluate_entry (fun _ _ => Except.error "ConnectionError") "t" "a" "c" "m" =
      ⟨"not-sure", "api-error", "Evaluation failed"⟩ :=
  claim_C5_per_entry_failure_recovery.1 (fun _ _ => Except.error "ConnectionError")
    "t" "a" "c" "m" "ConnectionError" rfl

/-! Helper lemmas for the status-enum closure claim. -/

theorem searchAux_some {α : Type} (f : List Char → Option α) (cs : List Char) (v : α)
    (h : searchAux f cs = some v) : ∃ t, f t = some v := by
  induction cs with
  | nil => exact ⟨[], h⟩
  | cons c cs ih =>
    unfold searchAux at h
    cases hf : f (c :: cs) with
    | some w => rw [hf] at h; exact ⟨c :: cs, hf.trans h⟩
    | none => rw [hf] at h; exact ih h

theorem matchStatusAt_mem {cs v : List Char} (h : matchStatusAt cs = some v) :
    v ∈ statusAlts := by
  unfold matchStatusAt at h
  split at h
  · exact List.mem_of_find?_eq_some h
  · exact absurd h (by simp)

theorem parseFields_status_mem (s : String) :
    (parseFields s).status = "accepted" ∨ (parseFields s).status = "rejected" ∨
      (parseFields s).status = "not-sure" := by
  unfold parseFields
  cases hs : searchAux matchStatusAt s.data with
  | none => simp
  | some v =>
    obtain ⟨t, ht⟩ := searchAux_some _ _ _ hs
    have hv := matchStatusAt_mem ht
    simp only [statusAlts, List.mem_cons, List.not_mem_nil, or_false] at hv
    rcases hv with h | h | h <;> rw [h] <;> simp

theorem evaluate_entry_status_mem (api : ApiFun) (t a c m : String) :
    (evaluate_entry api t a c m).status = "accepted" ∨
      (evaluate_entry api t a c m).status = "rejected" ∨
      (evaluate_entry api t a c m).status = "not-sure" := by
  unfold evaluate_entry
  cases api m [⟨"system", systemMsg⟩, ⟨"user", buildPrompt c t a⟩] with
  | error e => simp
  | ok content =>
    cases content with
    | none => simp [parse_response]
    | some s => exact parseFields_status_mem s

theorem countStatuses_ok (vs : List Verdict)
    (h : ∀ v ∈ vs, v.status = "accepted" ∨ v.status = "rejected" ∨
      v.status = "not-sure") :
    ∀ c, ∃ r, countStatuses vs c = Except.ok r := by
  induction vs with
  | nil => exact fun c => ⟨c, rfl⟩
  | cons v vs ih =>
    intro c
    have hrest := fun w hw => h w (List.mem_cons_of_mem v hw)
    unfold countStatuses
    rcases h v (List.mem_cons_self v vs) with h1 | h1 | h1
    · have hb : bumpCounts c v.status = Except.ok (c.1 + 1, c.2.1, c.2.2) := by
        rw [h1]; rfl
      rw [hb]; exact ih hrest _
    · have hb : bumpCounts c v.status = Except.ok (c.1, c.2.1 + 1, c.2.2) := by
        rw [h1]; rfl
      rw [hb]; exact ih hrest _
    · have hb : bumpCounts c v.status = Except.ok (c.1, c.2.1, c.2.2 + 1) := by
        rw [h1]; rfl
      rw [hb]; exact ih hrest _

/-- Claim C9: every verdict the pipeline produces — successful parse,
parse-exception sentinel or api-error sentinel — has status among
accepted/rejected/not-sure, so the fixed three-key count table of
calculate_statistics is indexed without a KeyError on pipeline output. -/
theorem claim_C9_status_enum_closed :
    ∀ (api : ApiFun) (entries : List Entry) (criteria_content model_name : String),
      (∀ v ∈ process_entries api entries criteria_content model_name,
        v.status = "accepted" ∨ v.status = "rejected" ∨ v.status = "not-sure") ∧
      ∃ r, countStatuses (process_entries api entries criteria_content model_name)
          (0, 0, 0) = Except.ok r := by
  intro api entries criteria_content model_name
  have hmem : ∀ v ∈ process_entries api entries criteria_content model_name,
      v.status = "accepted" ∨ v.status = "rejected" ∨ v.status = "not-sure" := by
    intro v hv
    simp only [process_entries, List.mem_map] at hv
    obtain ⟨e, _, rfl⟩ := hv
    exact evaluate_entry_status_mem api (e.title.getD "") (e.abstract.getD "")
      criteria_content model_name
  exact ⟨hmem, countStatuses_ok _ hmem (0, 0, 0)⟩

/-- Claim C6 (code bug): on the empty verdict sequence calculate_statistics
does not skip the statistics or report zeros — with total = 0 the very first
logged ratio evaluates counts["accepted"]/total and raises
ZeroDivisionError. -/
theorem claim_C6_empty_stats_divzero :
    calculate_statistics [] = Except.error "ZeroDivisionError: division by zero" := rfl

/-- Claim C2: the Bibliography Filter returns a sublist of the original
entries (original order, entries kept verbatim), and an entry is kept iff
some results row carries its identifier as citekey with a status equal to
"accepted" after lowercasing; an entry with no matching row is simply
excluded. -/
theorem claim_C2_filter_accepted_subset :
    ∀ (rows : List Verdict) (entries : List BibEntry),
      (create_accepted_bib rows entries).Sublist entries ∧
      ∀ e, e ∈ create_accepted_bib rows entries ↔
        e ∈ entries ∧ ∃ r ∈ rows, r.citekey = e.ID.getD "" ∧
          lowerString r.status = "accepted" := by
  intro rows entries
  refine ⟨List.filter_sublist _, ?_⟩
  intro e
  rw [create_accepted_bib, List.mem_filter]
  constructor
  · rintro ⟨he, hc⟩
    refine ⟨he, ?_⟩
    have hmem : e.ID.getD "" ∈ accepted_keys rows := by
      simpa using hc
    rw [accepted_keys, List.mem_filterMap] at hmem
    obtain ⟨r, hr, hif⟩ := hmem
    by_cases hs : lowerString r.status = "accepted"
    · rw [if_pos hs] at hif
      exact ⟨r, hr, Option.some.inj hif, hs⟩
    · rw [if_neg hs] at hif
      exact absurd hif (by simp)
  · rintro ⟨he, r, hr, hk, hs⟩
    refine ⟨he, ?_⟩
    have hmem : e.ID.getD "" ∈ accepted_keys rows := by
      rw [accepted_keys, List.mem_filterMap]
      exact ⟨r, hr, by rw [if_pos hs, hk]⟩
    simpa using hmem

/-- Claim C7 counterexample: on a missing criteria file process_bib fails,
but the classifier tool's top-level handler catches the exception and only
logs it, so the process exit status is 0, not non-zero as claimed. -/
theorem claim_C7_counterexample :
    process_bib (Except.error "Criteria file not found: criteria.md")
        (Except.ok []) (fun _ _ => Except.error "unused") "m"
        (fun _ => Except.ok ()) =
      Except.error "Criteria file not found: criteria.md" ∧
    survey_main_exit (process_bib (Except.error "Criteria file not found: criteria.md")
        (Except.ok []) (fun _ _ => Except.error "unused") "m"
        (fun _ => Except.ok ())) = 0 :=
  ⟨rfl, rfl⟩

/-- Claim C7 (amended): only the filter tool exits non-zero on prerequisite
failure — a missing results table, a missing bibliography or an unwritable
output each propagate to exit status 1; the classifier tool's process_bib
does propagate the error, but its top-level block catches every exception and
only logs it, so that tool always exits 0. -/
theorem claim_C7_exit_codes :
    (∀ (e : String) (readBib : Except String (List BibEntry))
        (writeBib : List BibEntry → Except String Unit),
      filter_main_exit (create_accepted_bib_run (Except.error e) readBib writeBib) = 1) ∧
    (∀ (e : String) (readCsv : Except String (List Verdict))
        (writeBib : List BibEntry → Except String Unit),
      filter_main_exit (create_accepted_bib_run readCsv (Except.error e) writeBib) = 1) ∧
    (∀ (e : String) (readCsv : Except String (List Verdict))
        (readBib : Except String (List BibEntry)),
      filter_main_exit
        (create_accepted_bib_run readCsv readBib (fun _ => Except.error e)) = 1) ∧
    (∀ (e : String) (loadBib : Except String (List Entry)) (api : ApiFun)
        (model_name : String) (writeCsv : List Verdict → Except String Unit),
      process_bib (Except.error e) loadBib api model_name writeCsv = Except.error e) ∧
    (∀ (criteria : Except String String) (loadBib : Except String (List Entry))
        (api : ApiFun) (model_name : String)
        (writeCsv : List Verdict → Except String Unit),
      survey_main_exit (process_bib criteria loadBib api model_name writeCsv) = 0) := by
  refine ⟨fun e readBib writeBib => rfl, ?_, ?_, fun e loadBib api m w => rfl, ?_⟩
  · intro e readCsv writeBib
    cases readCsv with
    | error e2 => rfl
    | ok rows => rfl
  · intro e readCsv readBib
    cases readCsv with
    | error e2 => rfl
    | ok rows =>
      cases readBib with
      | error e2 => rfl
      | ok db => rfl
  · intro criteria loadBib api m w
    cases h : process_bib criteria loadBib api m w with
    | error e => rfl
    | ok u => rfl

/-! Helper lemmas for the results-table round-trip claim. -/

theorem univNL_cons_ne {c : Char} (cs : List Char) (h : c ≠ '\r') :
    univNL (c :: cs) = c :: univNL cs := by
  cases cs with
  | nil => simp [univNL, h]
  | cons d cs => simp [univNL, h]

theorem univNL_append {xs : List Char} (ys : List Char) (h : '\r' ∉ xs) :
    univNL (xs ++ ys) = xs ++ univNL ys := by
  induction xs with
  | nil => rfl
  | cons x xs ih =>
    have hx : x ≠ '\r' := fun e => h (e ▸ List.mem_cons_self x xs)
    rw [List.cons_append, univNL_cons_ne _ hx,
      ih (fun m => h (List.mem_cons_of_mem x m))]
    rfl

theorem mem_escField {c : Char} : ∀ {f : List Char}, c ∈ escField f → c = '\"' ∨ c ∈ f := by
  intro f
  induction f with
  | nil => intro h; exact absurd h (List.not_mem_nil c)
  | cons d f ih =>
    intro h
    unfold escField at h
    rw [List.mem_append] at h
    rcases h with h | h
    · by_cases hd : d = '\"'
      · rw [if_pos hd] at h
        simp only [List.mem_cons, List.not_mem_nil, or_false] at h
        rcases h with h | h <;> exact Or.inl h
      · rw [if_neg hd] at h
        simp only [List.mem_cons, List.not_mem_nil, or_false] at h
        exact Or.inr (h ▸ List.mem_cons_self d f)
    · rcases ih h with h2 | h2
      · exact Or.inl h2
      · exact Or.inr (List.mem_cons_of_mem d h2)

theorem not_mem_encodeField {f : List Char} (h : '\r' ∉ f) : '\r' ∉ encodeField f := by
  unfold encodeField
  split
  · intro hm
    rw [List.mem_cons, List.mem_append] at hm
    rcases hm with h1 | h1 | h1
    · exact absurd h1 (by decide)
    · rcases mem_escField h1 with h2 | h2
      · exact absurd h2 (by decide)
      · exact h h2
    · simp only [List.mem_cons, List.not_mem_nil, or_false] at h1
      exact absurd h1 (by decide)
  · exact h

theorem not_mem_encodeRow {v : Verdict} (h : crFree v = true) : '\r' ∉ encodeRow v := by
  simp only [crFree, Bool.not_eq_true', Bool.or_eq_false_iff] at h
  obtain ⟨⟨⟨⟨h1, h2⟩, h3⟩, h4⟩, h5⟩ := h
  have m1 : '\r' ∉ v.citekey.data := by simpa using h1
  have m2 : '\r' ∉ v.title.data := by simpa using h2
  have m3 : '\r' ∉ v.status.data := by simpa using h3
  have m4 : '\r' ∉ v.criteria.data := by simpa using h4
  have m5 : '\r' ∉ v.reasoning.data := by simpa using h5
  unfold encodeRow
  intro hm
  simp only [List.mem_append, List.mem_cons] at hm
  rcases hm with h | h | h
  · exact not_mem_encodeField m1 h
  · exact absurd h (by decide)
  · rcases h with h | h | h
    · exact not_mem_encodeField m2 h
    · exact absurd h (by decide)
    · rcases h with h | h | h
      · exact not_mem_encodeField m3 h
      · exact absurd h (by decide)
      · rcases h with h | h | h
        · exact not_mem_encodeField m4 h
        · exact absurd h (by decide)
        · exact not_mem_encodeField m5 h

theorem csv_advance_unquoted :
    ∀ (cs fld : List Char) (row : List String) (rows : List (List String)),
    (∀ c ∈ cs, c ≠ ',' ∧ c ≠ '\"' ∧ c ≠ '\n') →
    List.foldl csvStep ⟨false, false, fld, row, rows⟩ cs =
      ⟨false, false, cs.reverse ++ fld, row, rows⟩ := by
  intro cs
  induction cs with
  | nil => intro fld row rows h; rfl
  | cons c cs ih =>
    intro fld row rows h
    obtain ⟨h1, h2, h3⟩ := h c (List.mem_cons_self c cs)
    have hstep : csvStep ⟨false, false, fld, row, rows⟩ c =
        ⟨false, false, c :: fld, row, rows⟩ := by
      simp [csvStep, h1, h2, h3]
    rw [List.foldl_cons, hstep, ih _ _ _ (fun d hd => h d (List.mem_cons_of_mem c hd))]
    simp

theorem csv_advance_quoted :
    ∀ (cs fld : List Char) (row : List String) (rows : List (List String)),
    List.foldl csvStep ⟨true, false, fld, row, rows⟩ (escField cs) =
      ⟨true, false, cs.reverse ++ fld, row, rows⟩ := by
  intro cs
  induction cs with
  | nil => intro fld row rows; rfl
  | cons c cs ih =>
    intro fld row rows
    by_cases hc : c = '\"'
    · subst hc
      have he : escField ('\"' :: cs) = '\"' :: '\"' :: escField cs := by
        simp [escField]
      have s1 : csvStep ⟨true, false, fld, row, rows⟩ '\"' =
          ⟨true, true, fld, row, rows⟩ := by simp [csvStep]
      have s2 : csvStep ⟨true, true, fld, row, rows⟩ '\"' =
          ⟨true, false, '\"' :: fld, row, rows⟩ := by simp [csvStep]
      rw [he, List.foldl_cons, List.foldl_cons, s1, s2, ih]
      simp
    · have he : escField (c :: cs) = c :: escField cs := by
        simp [escField, hc]
      have s1 : csvStep ⟨true, false, fld, row, rows⟩ c =
          ⟨true, false, c :: fld, row, rows⟩ := by simp [csvStep, hc]
      rw [he, List.foldl_cons, s1, ih]
      simp

theorem csv_field_comma (f : List Char) (row : List String)
    (rows : List (List String)) (rest : List Char) :
    List.foldl csvStep ⟨false, false, [], row, rows⟩ (encodeField f ++ ',' :: rest) =
      List.foldl csvStep ⟨false, false, [], String.mk f :: row, rows⟩ rest := by
  by_cases hq : needsQuote f
  · have he : encodeField f = '\"' :: (escField f ++ ['\"']) := by
      simp [encodeField, hq]
    rw [he]
    have hassoc : ('\"' :: (escField f ++ ['\"'])) ++ ',' :: rest =
        '\"' :: (escField f ++ ('\"' :: ',' :: rest)) := by simp
    rw [hassoc, List.foldl_cons]
    have s0 : csvStep ⟨false, false, [], row, rows⟩ '\"' =
        ⟨true, false, [], row, rows⟩ := by simp [csvStep]
    rw [s0, List.foldl_append, csv_advance_quoted, List.foldl_cons]
    have s1 : csvStep ⟨true, false, f.reverse ++ [], row, rows⟩ '\"' =
        ⟨true, true, f.reverse ++ [], row, rows⟩ := by simp [csvStep]
    rw [s1, List.foldl_cons]
    have s2 : csvStep ⟨true, true, f.reverse ++ [], row, rows⟩ ',' =
        ⟨false, false, [], String.mk f :: row, rows⟩ := by
      simp [csvStep]
    rw [s2]
  · have he : encodeField f = f := by simp [encodeField, hq]
    rw [he]
    have hchars : ∀ c ∈ f, c ≠ ',' ∧ c ≠ '\"' ∧ c ≠ '\n' := by
      intro c hc
      simp only [needsQuote, List.any_eq_true, not_exists, Bool.or_eq_true,
        decide_eq_true_eq, not_or, Bool.not_eq_true] at hq
      have hx := hq c
      refine ⟨fun e => hx ⟨hc, by tauto⟩, fun e => hx ⟨hc, by tauto⟩,
        fun e => hx ⟨hc, by tauto⟩⟩
    rw [List.foldl_append, csv_advance_unquoted f [] row rows hchars, List.foldl_cons]
    have s1 : csvStep ⟨false, false, f.reverse ++ [], row, rows⟩ ',' =
        ⟨false, false, [], String.mk f :: row, rows⟩ := by
      simp [csvStep]
    rw [s1]

theorem csv_field_newline (f : List Char) (row : List String)
    (rows : List (List String)) (rest : List Char) :
    List.foldl csvStep ⟨false, false, [], row, rows⟩ (encodeField f ++ '\n' :: rest) =
      List.foldl csvStep
        ⟨false, false, [], [], (String.mk f :: row).reverse :: rows⟩ rest := by
  by_cases hq : needsQuote f
  · have he : encodeField f = '\"' :: (escField f ++ ['\"']) := by
      simp [encodeField, hq]
    rw [he]
    have hassoc : ('\"' :: (escField f ++ ['\"'])) ++ '\n' :: rest =
        '\"' :: (escField f ++ ('\"' :: '\n' :: rest)) := by simp
    rw [hassoc, List.foldl_cons]
    have s0 : csvStep ⟨false, false, [], row, rows⟩ '\"' =
        ⟨true, false, [], row, rows⟩ := by simp [csvStep]
    rw [s0, List.foldl_append, csv_advance_quoted, List.foldl_cons]
    have s1 : csvStep ⟨true, false, f.reverse ++ [], row, rows⟩ '\"' =
        ⟨true, true, f.reverse ++ [], row, rows⟩ := by simp [csvStep]
    rw [s1, List.foldl_cons]
    have s2 : csvStep ⟨true, true, f.reverse ++ [], row, rows⟩ '\n' =
        ⟨false, false, [], [], (String.mk f :: row).reverse :: rows⟩ := by
      simp [csvStep]
    rw [s2]
  · have he : encodeField f = f := by simp [encodeField, hq]
    rw [he]
    have hchars : ∀ c ∈ f, c ≠ ',' ∧ c ≠ '\"' ∧ c ≠ '\n' := by
      intro c hc
      simp only [needsQuote, List.any_eq_true, not_exists, Bool.or_eq_true,
        decide_eq_true_eq, not_or, Bool.not_eq_true] at hq
      have hx := hq c
      refine ⟨fun e => hx ⟨hc, by tauto⟩, fun e => hx ⟨hc, by tauto⟩,
        fun e => hx ⟨hc, by tauto⟩⟩
    rw [List.foldl_append, csv_advance_unquoted f [] row rows hchars, List.foldl_cons]
    have s1 : csvStep ⟨false, false, f.reverse ++ [], row, rows⟩ '\n' =
        ⟨false, false, [], [], (String.mk f :: row).reverse :: rows⟩ := by
      simp [csvStep]
    rw [s1]

theorem csv_row (v : Verdict) (rows : List (List String)) (rest : List Char) :
    List.foldl csvStep ⟨false, false, [], [], rows⟩ (encodeRow v ++ '\n' :: rest) =
      List.foldl csvStep ⟨false, false, [], [], rowFields v :: rows⟩ rest := by
  unfold encodeRow
  simp only [List.append_assoc, List.cons_append]
  rw [csv_field_comma, csv_field_comma, csv_field_comma, csv_field_comma,
    csv_field_newline]
  rfl

theorem csv_body : ∀ (vs : List Verdict) (rows : List (List String)),
    (∀ v ∈ vs, crFree v = true) →
    csvFinish (List.foldl csvStep ⟨false, false, [], [], rows⟩
      (univNL (vs.foldr (fun v acc => encodeRow v ++ '\r' :: '\n' :: acc) []))) =
      rows.reverse ++ vs.map rowFields := by
  intro vs
  induction vs with
  | nil =>
    intro rows h
    simp [csvFinish, univNL]
  | cons v vs ih =>
    intro rows h
    have hcr := not_mem_encodeRow (h v (List.mem_cons_self v vs))
    show csvFinish (List.foldl csvStep _ (univNL (encodeRow v ++ '\r' :: '\n' ::
      vs.foldr (fun v acc => encodeRow v ++ '\r' :: '\n' :: acc) []))) = _
    rw [univNL_append _ hcr]
    rw [show univNL ('\r' :: '\n' ::
        vs.foldr (fun v acc => encodeRow v ++ '\r' :: '\n' :: acc) []) =
      '\n' :: univNL (vs.foldr (fun v acc => encodeRow v ++ '\r' :: '\n' :: acc) [])
      from rfl]
    rw [csv_row]
    rw [ih _ (fun w hw => h w (List.mem_cons_of_mem v hw))]
    simp

/-- Claim C8 counterexample: the excel-dialect escaping does not survive the
read-back for every field content — a carriage return inside the reasoning
is written quoted, but the reader's universal-newline translation turns it
into a line feed, so the row read back differs from the row written. -/
theorem claim_C8_counterexample :
    read_results_csv (write_results_to_csv
        [⟨"k1", "t1", "accepted", "CI3", "a\rb"⟩]) =
      [headerFields, ["k1", "t1", "accepted", "CI3", "a\nb"]] ∧
    ("a\nb" : String) ≠ "a\rb" :=
  ⟨by decide, by decide⟩

/-- Claim C8 (amended): for every verdict sequence whose fields contain no
carriage-return character, writing the results table and reading it back
yields field-for-field identical rows — reasoning text with embedded commas,
line feeds and quote characters included; a field containing a carriage
return comes back with it turned into a line feed (see the
counterexample). -/
theorem claim_C8_roundtrip (vs : List Verdict) (h : ∀ v ∈ vs, crFree v = true) :
    read_results_csv (write_results_to_csv vs) = headerFields :: vs.map rowFields := by
  unfold read_results_csv write_results_to_csv csvParse
  rw [univNL_append _ (by decide)]
  rw [show univNL ('\r' :: '\n' ::
      vs.foldr (fun v acc => encodeRow v ++ '\r' :: '\n' :: acc) []) =
    '\n' :: univNL (vs.foldr (fun v acc => encodeRow v ++ '\r' :: '\n' :: acc) [])
    from rfl]
  rw [show headerChars ++ '\n' ::
      univNL (vs.foldr (fun v acc => encodeRow v ++ '\r' :: '\n' :: acc) []) =
    (headerChars ++ ['\n']) ++
      univNL (vs.foldr (fun v acc => encodeRow v ++ '\r' :: '\n' :: acc) []) by simp]
  rw [List.foldl_append]
  rw [show List.foldl csvStep ⟨false, false, [], [], []⟩ (headerChars ++ ['\n']) =
    (⟨false, false, [], [], [headerFields]⟩ : CsvSt) from rfl]
  exact csv_body vs [headerFields] h

/-- Claim C8 witness: the amended round-trip theorem applied to a verdict
whose reasoning holds a comma, a quote and a line feed. -/
theorem claim_C8_witness :
    read_results_csv (write_results_to_csv
        [⟨"k1", "a,b", "accepted", "CI3", "say \"hi\",\nok"⟩]) =
      headerFields ::
        ([⟨"k1", "a,b", "accepted", "CI3", "say \"hi\",\nok"⟩] : List Verdict).map
          rowFields :=
  claim_C8_roundtrip _ (by decide)

end SurveyScreen
